import Mathlib

/-!
Verification of the turn-synchronization core of the TheFinalPage repository
(a turn-based multiplayer text adventure: React clients sharing a Supabase
document).  The definitions below are a shallow embedding of the TypeScript
sources:

* `Player`, `GameState` — the `game_state` document shape
  (`src/app/utils/supabase.ts`, `src/unnamed/part_002`, extended with the
  `gameStarted`/`equippedItems`/`foundItems`/`helpInfo` fields of
  `src/app/components/TextAdventure.tsx`; JS object spread preserves all
  runtime fields, so one record with every field models every variant).
* `handleCommand`, `handleSkipTurn`, `timerTick`, `resetTimerOnChange` —
  the turn-sync client of `src/unnamed/part_002`.
* `processGameAction`, `getFallbackResponse`, `extractFoundItems` — the
  engine wrapper of `src/app/utils/llm.ts` (first variant, lines 1–365).
  The remote call itself is abstracted as an `EngineOutcome` argument;
  everything after the `await` is modelled faithfully.
* `joinGameRoom`, `updatePlayerStatus` — `src/app/utils/supabase.ts`.
* `addPlayer`, `removePlayer`, `toggleReady` — the local lobby variant of
  `src/app/components/Lobby.tsx`.

JavaScript-specific semantics (truthiness of strings, `String.includes`,
`Array.findIndex`, object spread with computed key) are modelled by the
`js*` helpers defined first.
-/

namespace TheFinalPage

/-- Substring occurrence test on character lists (`pat` occurs in the
list). -/
def infixB (pat : List Char) : List Char → Bool
  | [] => pat.isEmpty
  | c :: rest => pat.isPrefixOf (c :: rest) || infixB pat rest

/-- JS `s.includes(t)`: substring containment (true when `t` is empty). -/
def jsIncludes (s t : String) : Bool :=
  infixB t.data s.data

/-- JS `s.trim()`: strip whitespace from both ends. -/
def jsTrim (s : String) : String :=
  String.mk (((s.data.dropWhile Char.isWhitespace).reverse.dropWhile
    Char.isWhitespace).reverse)

/-- JS `s.toLowerCase()`. -/
def jsToLower (s : String) : String :=
  String.mk (s.data.map Char.toLower)

/-- JS `arr.join(sep)`. -/
def jsJoin (sep : String) : List String → String
  | [] => ""
  | [x] => x
  | x :: y :: rest => x ++ sep ++ jsJoin sep (y :: rest)

/-- JS `s || d` for strings: the empty string is falsy. -/
def jsOr (s d : String) : String :=
  if s.data.isEmpty then d else s

/-- A roster entry: `{ id, name, isReady }` (supabase.ts / Lobby.tsx). -/
structure Player where
  id : String
  name : String
  isReady : Bool
deriving DecidableEq

def defaultPlayer : Player := ⟨"", "", false⟩

/-- The static `helpInfo` record of TextAdventure.tsx. -/
structure HelpInfo where
  commands : List String
  locations : List String
  items : List String
  tips : List String
deriving DecidableEq

/-- The shared `game_state` document.  `inventory` and `equippedItems` are
JS objects keyed by player id, modelled as insertion-ordered association
lists; `foundItems` is the session-wide discovered-item list. -/
structure GameState where
  currentLocation : String
  inventory : List (String × List String)
  history : List String
  currentPlayer : String
  players : List Player
  gameStarted : Bool
  equippedItems : List (String × List String)
  foundItems : List String
  helpInfo : Option HelpInfo
deriving DecidableEq

/-- JS object read `obj[k]` on an id-keyed map (callers only read keys that
are present; a missing key is modelled as the empty list). -/
def getInv (inv : List (String × List String)) (k : String) : List String :=
  ((inv.find? (fun e => e.1 == k)).map Prod.snd).getD []

/-- JS spread-with-computed-key `{...obj, [k]: v}`: replaces the value in
place when the key exists, otherwise appends the new key at the end. -/
def setInv (inv : List (String × List String)) (k : String) (v : List String) :
    List (String × List String) :=
  if inv.any (fun e => e.1 == k) then
    inv.map (fun e => if e.1 == k then (k, v) else e)
  else
    inv ++ [(k, v)]

/-- JS `players.findIndex(p => p.id === pid)`, as an `Option` (`-1 ↦ none`). -/
def findIndexById (pid : String) : List Player → Option Nat
  | [] => none
  | p :: rest =>
      if p.id == pid then some 0 else (findIndexById pid rest).map (· + 1)

/-- JS `players.findIndex(p => p.id === pid)` with the JS `-1` convention. -/
def jsFindIndex (ps : List Player) (pid : String) : Int :=
  match findIndexById pid ps with
  | some i => (i : Int)
  | none => -1

/-- `const nextPlayerIndex = (currentPlayerIndex + 1) % players.length`
(part_002 line 132). -/
def nextPlayerIndex (ps : List Player) (pid : String) : Nat :=
  ((jsFindIndex ps pid + 1) % (ps.length : Int)).toNat

/-- `players[nextPlayerIndex].id` (part_002 line 133). -/
def nextPlayerId (ps : List Player) (pid : String) : String :=
  (ps.getD (nextPlayerIndex ps pid) defaultPlayer).id

/-- `gameState.players.find(p => p.id === gameState.currentPlayer)?.name
|| 'Unknown'` (part_002 lines 108, 170). -/
def playerNameOf (s : GameState) : String :=
  match s.players.find? (fun p => p.id == s.currentPlayer) with
  | some p => jsOr p.name "Unknown"
  | none => "Unknown"

/-- The result object returned by `processGameAction` (llm.ts lines
131-138). -/
structure GameResult where
  response : String
  location : String
  newItems : List String
  removeItems : List String
  equippedItems : List String
  foundItems : List String
deriving DecidableEq

/-- `handleCommand` of `src/unnamed/part_002` lines 102-159 (success path):
the guard `if (!input.trim() || isProcessing || !gameState) return;`, the
command echo, the inventory reconciliation, the round-robin advancement and
the single document write.  The awaited `processGameAction` value is the
`result` argument; `none` means no store write happened at all.  The
function takes no acting-player argument because the source consults only
`gameState.currentPlayer` — the submitting client's `playerId` prop is
never read by `handleCommand`. -/
def handleCommand (s : GameState) (input : String) (result : GameResult) :
    Option GameState :=
  if (jsTrim input).data.isEmpty then none
  else
    let currentPlayerName := playerNameOf s
    let newHistory := s.history ++ ["> " ++ currentPlayerName ++ ": " ++ input]
    let updatedInventory :=
      setInv s.inventory s.currentPlayer
        ((getInv s.inventory s.currentPlayer).filter
            (fun item => !result.removeItems.contains item)
          ++ result.newItems)
    some { s with
      currentLocation := jsOr result.location s.currentLocation,
      history := newHistory ++ [result.response],
      inventory := updatedInventory,
      currentPlayer := nextPlayerId s.players s.currentPlayer }

/-- `handleSkipTurn` of `src/unnamed/part_002` lines 167-184: appends the
skip line and advances `currentPlayer`; every other field is carried over
by the object spread.  It performs no engine call (it takes no engine
result). -/
def handleSkipTurn (s : GameState) : GameState :=
  { s with
    history := s.history ++
      ["> " ++ playerNameOf s ++ "\x27s turn was skipped (time\x27s up)"],
    currentPlayer := nextPlayerId s.players s.currentPlayer }

/-- `const TURN_TIME_LIMIT = 60` (part_002 line 29). -/
def TURN_TIME_LIMIT : Nat := 60

/-- One second of the part_002 interval (lines 82-90): at `remaining <= 1`
it fires `handleSkipTurn` and resets the counter to `TURN_TIME_LIMIT`,
otherwise it decrements. -/
def timerTick (s : GameState) (remaining : Nat) : GameState × Nat :=
  if remaining ≤ 1 then (handleSkipTurn s, TURN_TIME_LIMIT) else (s, remaining - 1)

/-- The part_002 reset effect (lines 96-100): the client timer resets to
`TURN_TIME_LIMIT` only when the observed `currentPlayer` value changes. -/
def resetTimerOnChange (oldCur newCur : String) (remaining : Nat) : Nat :=
  if newCur ≠ oldCur then TURN_TIME_LIMIT else remaining

/-- `updatePlayerStatus` of supabase.ts lines 125-149: toggles the matching
player's ready flag in the shared document; nothing else changes. -/
def updatePlayerStatus (s : GameState) (pid : String) (ready : Bool) : GameState :=
  { s with
    players := s.players.map
      (fun p => if p.id == pid then { p with isReady := ready } else p) }

/-- `joinGameRoom` of supabase.ts lines 78-122: unconditionally appends the
new player and an empty inventory entry.  The generated random id is the
`newPlayerId` argument.  The source performs no check of any started flag. -/
def joinGameRoom (s : GameState) (newPlayerId : String) (playerName : String) :
    GameState :=
  { s with
    players := s.players ++ [⟨newPlayerId, playerName, false⟩],
    inventory := setInv s.inventory newPlayerId [] }

/-- The local lobby `addPlayer` (Lobby.tsx lines 215-227): rejects a blank
name and a full (4-player) roster, otherwise appends.  The random id is the
`newId` argument. -/
def addPlayer (players : List Player) (name : String) (newId : String) :
    List Player :=
  if (jsTrim name).data.isEmpty || decide (4 ≤ players.length) then players
  else players ++ [⟨newId, jsTrim name, false⟩]

/-- The local lobby `removePlayer` (Lobby.tsx lines 237-239). -/
def removePlayer (players : List Player) (pid : String) : List Player :=
  players.filter (fun p => !(p.id == pid))

/-- The local lobby `toggleReady` (Lobby.tsx lines 229-235). -/
def toggleReady (players : List Player) (pid : String) : List Player :=
  players.map (fun p => if p.id == pid then { p with isReady := !p.isReady } else p)

/-- One user interaction with the local lobby. -/
inductive LobbyOp where
  | add (name newId : String)
  | remove (pid : String)
  | toggle (pid : String)
deriving DecidableEq

def applyLobbyOp (players : List Player) : LobbyOp → List Player
  | .add name newId => addPlayer players name newId
  | .remove pid => removePlayer players pid
  | .toggle pid => toggleReady players pid

/-! ## The engine wrapper: `src/app/utils/llm.ts` (first variant, lines 1-365) -/

/-- The `inventory` field of llm.ts's `GameContext`: the source probes it
with `Array.isArray` (line 141), so callers pass either a plain array
(part_002 line 113) or the whole per-player map (TextAdventure.tsx
line 184). -/
inductive InvArg where
  | arr (items : List String)
  | obj (entries : List (String × List String))
deriving DecidableEq

/-- The `context` argument of `processGameAction` (llm.ts lines 5-17). -/
structure GameContext where
  currentLocation : String
  inventory : InvArg
  equippedItems : List String
  history : List String
  foundItems : List String
  helpInfo : Option HelpInfo
deriving DecidableEq

/-- `Array.isArray(inventory) ? inventory : Object.values(inventory).flat()`
(llm.ts lines 141-143). -/
def inventoryArray : InvArg → List String
  | .arr a => a
  | .obj m => (m.map Prod.snd).flatten

/-- One entry of the `FALLBACK_RESPONSES` table (llm.ts lines 21-52). -/
structure FallbackEntry where
  response : String
  location : String
  newItems : List String
  removeItems : List String
deriving DecidableEq

def FALLBACK_cave : List FallbackEntry :=
  [⟨"The cave entrance looms before you, dark and mysterious. You can make out some glinting objects inside.",
    "cave", [], []⟩,
   ⟨"Cool air wafts from the cave\x27s depths. You hear distant echoes.",
    "cave", [], []⟩]

def FALLBACK_forest : List FallbackEntry :=
  [⟨"Tall trees surround you, their leaves rustling in the breeze. A path leads deeper into the woods.",
    "forest", [], []⟩]

def FALLBACK_dragon : List FallbackEntry :=
  [⟨"The massive dragon regards you with ancient, intelligent eyes. It seems to be waiting for something.",
    "dragon", [], []⟩]

/-- `FALLBACK_RESPONSES[location] || FALLBACK_RESPONSES.cave`
(llm.ts line 58): the table is keyed by the current location. -/
def fallbackFor (loc : String) : List FallbackEntry :=
  if loc = "cave" then FALLBACK_cave
  else if loc = "forest" then FALLBACK_forest
  else if loc = "dragon" then FALLBACK_dragon
  else FALLBACK_cave

def defaultFallbackEntry : FallbackEntry := ⟨"", "", [], []⟩

/-- `getFallbackResponse` (llm.ts lines 56-88).  `Math.floor(Math.random()
* responses.length)` is modelled by `rand % responses.length` with the
random draw `rand` passed in. -/
def getFallbackResponse (context : GameContext) (action : String) (rand : Nat) :
    GameResult :=
  let responses := fallbackFor context.currentLocation
  if jsIncludes (jsToLower action) "look" then
    let e := responses.headD defaultFallbackEntry
    { response := "You carefully observe your surroundings. " ++ e.response,
      location := e.location, newItems := [], removeItems := [],
      equippedItems := [], foundItems := [] }
  else if jsIncludes (jsToLower action) "take" || jsIncludes (jsToLower action) "pick up" then
    let e := responses.headD defaultFallbackEntry
    { response := "You attempt to take something. " ++ e.response,
      location := e.location, newItems := ["mysterious item"], removeItems := [],
      equippedItems := [], foundItems := [] }
  else
    let e := responses.getD (rand % responses.length) defaultFallbackEntry
    { response := e.response, location := e.location, newItems := e.newItems,
      removeItems := e.removeItems, equippedItems := [], foundItems := [] }

/-- The dead constant `API_LIMIT_MESSAGE` (llm.ts lines 120-125): defined
but never referenced by any code path. -/
def API_LIMIT_MESSAGE : FallbackEntry :=
  ⟨"I apologize, but the game needs to rest for now. The API usage limit has been reached. Please try again later!",
   "cave", [], []⟩

/-- The banner trigger of part_002 lines 117-119:
`result.response.includes("API usage limit has been reached")`. -/
def apiLimitBannerTriggered (result : GameResult) : Bool :=
  jsIncludes result.response "API usage limit has been reached"

/-- The trigger alternatives of the item-extraction regex
`/(?:you find|you see|there is|there\x27s|you notice|you spot|you discover|you uncover) (?:a|an|the) ([^.!?]+)/gi`
(llm.ts line 231). -/
def itemTriggers : List (List Char) :=
  ["you find".data, "you see".data, "there is".data, "there\x27s".data,
   "you notice".data, "you spot".data, "you discover".data, "you uncover".data]

def itemArticles : List (List Char) :=
  ["a".data, "an".data, "the".data]

/-- Try the extraction regex at the head of `cs`: trigger, space, article,
space, then a non-empty capture of characters other than `.`, `!`, `?`.
Returns the capture and the total number of characters consumed by the
whole match.  The alternatives are pairwise non-overlapping at any given
position, so first-alternative-wins equals the regex backtracking order. -/
def matchItemAt (cs : List Char) : Option (String × Nat) :=
  match itemTriggers.findSome? (fun trig =>
      let pat := trig ++ [' ']
      if cs.take pat.length = pat then some pat.length else none) with
  | none => none
  | some n1 =>
    let afterTrig := cs.drop n1
    match itemArticles.findSome? (fun art =>
        let pat := art ++ [' ']
        if afterTrig.take pat.length = pat then some pat.length else none) with
    | none => none
    | some n2 =>
      let afterArt := afterTrig.drop n2
      let cap := afterArt.takeWhile (fun c => c ≠ '.' ∧ c ≠ '!' ∧ c ≠ '?')
      if cap.isEmpty then none
      else some (String.mk cap, n1 + n2 + cap.length)

/-- The `exec` loop of llm.ts lines 232-239: repeatedly find the leftmost
match, collect the capture, and resume after the end of the whole match.
Structural recursion on a fuel argument; every iteration consumes at least
one character, so `cs.length` fuel never runs out. -/
def scanItemsFuel : Nat → List Char → List String
  | 0, _ => []
  | _ + 1, [] => []
  | fuel + 1, c :: rest =>
    match matchItemAt (c :: rest) with
    | some (item, k) => item :: scanItemsFuel fuel ((c :: rest).drop (k.max 1))
    | none => scanItemsFuel fuel rest

def scanItems (cs : List Char) : List String :=
  scanItemsFuel cs.length cs

/-- JS `includes`-based dedup of llm.ts lines 236-238 (keep first
occurrence). -/
def dedupKeepFirst (l : List String) : List String :=
  l.foldl (fun acc x => if acc.contains x then acc else acc ++ [x]) []

/-- The item-extraction phase of llm.ts lines 230-239: the case-insensitive
regex is run over the lowercased response, each capture is trimmed and
lowercased, and duplicates are dropped. -/
def extractFoundItems (response : String) : List String :=
  dedupKeepFirst ((scanItems (jsToLower response).data).map jsTrim)

/-- Remove the first occurrence of `pick up` or `take` followed by at least
one whitespace character, consuming the whole whitespace run — the JS
`action.replace(/(?:pick up|take)\s+/, '')` of llm.ts line 243. -/
def matchPickupToken (cs : List Char) : Option (List Char) :=
  (["pick up".data, "take".data].findSome? (fun pat =>
    if cs.take pat.length = pat then
      match cs.drop pat.length with
      | c :: rest => if c.isWhitespace then some ((c :: rest).dropWhile Char.isWhitespace) else none
      | [] => none
    else none))

def removeFirstPickup : List Char → List Char
  | [] => []
  | c :: rest =>
    match matchPickupToken (c :: rest) with
    | some restAfter => restAfter
    | none => c :: removeFirstPickup rest

/-- `const itemToPick = action.toLowerCase().replace(/(?:pick up|take)\s+/, '').trim()`
(llm.ts line 243). -/
def pickupTarget (action : String) : String :=
  jsTrim (String.mk (removeFirstPickup (jsToLower action).data))

/-- The pickup matching predicate of llm.ts lines 246-248:
`item.toLowerCase().includes(itemToPick) || itemToPick.includes(item.toLowerCase())`. -/
def pickMatches (itemToPick : String) (item : String) : Bool :=
  jsIncludes (jsToLower item) itemToPick || jsIncludes itemToPick (jsToLower item)

/-- `action.toLowerCase().includes('pick up') || action.toLowerCase().includes('take')`
(llm.ts line 242). -/
def isPickupCommand (action : String) : Bool :=
  jsIncludes (jsToLower action) "pick up" || jsIncludes (jsToLower action) "take"

/-- The pickup branch of llm.ts lines 241-303, operating on the extracted
`foundItems` list `fs`.  `indexOf` + `splice` on a present element is
`List.erase`; `foundItems[0]` + `shift` is head + tail. -/
def handlePickupCmd (action : String) (context : GameContext) (fs : List String) :
    GameResult :=
  let itemToPick := pickupTarget action
  match fs.find? (pickMatches itemToPick) with
  | some foundItem =>
      { response := "You pick up the " ++ foundItem ++ ".",
        location := context.currentLocation, newItems := [foundItem],
        removeItems := [], equippedItems := context.equippedItems,
        foundItems := fs.erase foundItem }
  | none =>
      if itemToPick.data.isEmpty && !fs.isEmpty then
        { response := "You pick up the " ++ fs.headD "" ++ ".",
          location := context.currentLocation, newItems := [fs.headD ""],
          removeItems := [], equippedItems := context.equippedItems,
          foundItems := fs.tail }
      else
        { response := "You don\x27t see that item to pick up.",
          location := context.currentLocation, newItems := [],
          removeItems := [], equippedItems := context.equippedItems,
          foundItems := fs }

def optJoin (o : Option HelpInfo) (f : HelpInfo → List String) (sep : String) :
    String :=
  match o with
  | some h => jsJoin sep (f h)
  | none => ""

/-- The `help` special case of llm.ts lines 219-228. -/
def helpResponse (context : GameContext) : GameResult :=
  let inv := inventoryArray context.inventory
  { response := "=== Game Help ===\n\nCurrent Location: " ++ context.currentLocation
      ++ "\n\nInventory: " ++ jsOr (jsJoin ", " inv) "empty"
      ++ "\n\nEquipped Items: "
      ++ jsOr (jsJoin ", " context.equippedItems) "nothing equipped"
      ++ "\n\nAvailable Commands:\n" ++ optJoin context.helpInfo HelpInfo.commands "\n"
      ++ "\n\nPossible Locations:\n" ++ optJoin context.helpInfo HelpInfo.locations ", "
      ++ "\n\nKnown Items:\n" ++ optJoin context.helpInfo HelpInfo.items ", "
      ++ "\n\nTips:\n" ++ optJoin context.helpInfo HelpInfo.tips "\n",
    location := context.currentLocation, newItems := [], removeItems := [],
    equippedItems := context.equippedItems, foundItems := context.foundItems }

/-- The outcome of the remote call inside `processGameAction`:
`fetchError` — the `fetch` (or any step before line 192) threw;
`httpError rateLimited` — `!response.ok` (llm.ts lines 192-198; both the
rate-limit message and the generic message are thrown `Error`s and land in
the same `catch`);
`ok parsed raw` — a 2xx response with content `raw`, where `parsed = some r`
when `JSON.parse` succeeded with response field `r` and `parsed = none` when
it threw (lines 204-216 then use `raw` itself as the response text). -/
inductive EngineOutcome where
  | fetchError
  | httpError (rateLimited : Bool)
  | ok (parsed : Option String) (raw : String)
deriving DecidableEq

/-- `processGameAction` (llm.ts lines 128-319), with the remote call
abstracted as the `outcome` argument and the random draw of the fallback
path as `rand`.  Every thrown error reaches the single `catch` (lines
314-318), which returns `getFallbackResponse` — including the rate-limit
throw; `API_LIMIT_MESSAGE` is never consulted. -/
def processGameAction (outcome : EngineOutcome) (action : String)
    (context : GameContext) (rand : Nat) : GameResult :=
  match outcome with
  | .fetchError => getFallbackResponse context action rand
  | .httpError _ => getFallbackResponse context action rand
  | .ok parsed raw =>
    let responseText := parsed.getD raw
    if jsToLower action = "help" then helpResponse context
    else
      let fs := extractFoundItems responseText
      if isPickupCommand action then handlePickupCmd action context fs
      else if fs.isEmpty then
        { response := responseText, location := context.currentLocation,
          newItems := [], removeItems := [], equippedItems := context.equippedItems,
          foundItems := fs }
      else
        { response := responseText ++ "\n\nYou found: "
            ++ jsJoin ", " fs
            ++ "\nUse \"pick up\" or \"take\" to add items to your inventory.",
          location := context.currentLocation, newItems := [], removeItems := [],
          equippedItems := context.equippedItems, foundItems := fs }

/-! ## Concrete fixtures used by closed theorems and witnesses -/

def ctxCave : GameContext := ⟨"cave", .arr [], [], [], [], none⟩

def alice : Player := ⟨"a", "Alice", true⟩

def bob : Player := ⟨"b", "Bob", true⟩

/-- A started two-player session (roster `[Alice, Bob]`, Alice's turn). -/
def sTwo : GameState :=
  { currentLocation := "cave",
    inventory := [("a", []), ("b", [])],
    history := ["Welcome to the cave! Your adventure begins..."],
    currentPlayer := "a",
    players := [alice, bob],
    gameStarted := true,
    equippedItems := [("a", []), ("b", [])],
    foundItems := [],
    helpInfo := none }

/-- A started single-player session. -/
def sSolo : GameState :=
  { currentLocation := "cave",
    inventory := [("a", [])],
    history := ["Welcome to the cave! Your adventure begins..."],
    currentPlayer := "a",
    players := [⟨"a", "Ann", true⟩],
    gameStarted := true,
    equippedItems := [("a", [])],
    foundItems := [],
    helpInfo := none }

/-! ## Helper lemmas -/

lemma infixB_nil (l : List Char) : infixB [] l = true := by
  cases l <;> simp [infixB, List.isPrefixOf]

lemma jsIncludes_empty (s : String) : jsIncludes s "" = true := by
  simpa [jsIncludes] using infixB_nil s.data

/-- With pairwise-distinct ids, JS `findIndex` locates the indexed player. -/
lemma findIndexById_get (ps : List Player) (i : Nat) (hi : i < ps.length)
    (hnd : (ps.map Player.id).Nodup) :
    findIndexById (ps.get ⟨i, hi⟩).id ps = some i := by
  induction ps generalizing i with
  | nil => exact absurd hi (by simp)
  | cons p rest ih =>
    have hnd2 : (∀ x ∈ rest, ¬ x.id = p.id) ∧ (rest.map Player.id).Nodup := by
      simpa using hnd
    cases i with
    | zero => simp [findIndexById]
    | succ j =>
      have hj : j < rest.length := by simpa using hi
      have hne : p.id ≠ (rest.get ⟨j, hj⟩).id := fun h =>
        hnd2.1 _ (rest.get_mem _ _) h.symm
      have ihr := ih j hj hnd2.2
      simp only [List.get_eq_getElem] at hne ihr
      simp [findIndexById, hne, ihr]

/-- The round-robin successor is always a roster member (part_002 lines
131-133 always index with `(idx + 1) % length`, also when `findIndex`
returned `-1`). -/
lemma nextPlayerIndex_lt (ps : List Player) (pid : String) (h : ps ≠ []) :
    nextPlayerIndex ps pid < ps.length := by
  have hlen : 0 < ps.length := List.length_pos.mpr h
  unfold nextPlayerIndex
  have h0 : (0 : Int) ≤ jsFindIndex ps pid + 1 := by
    unfold jsFindIndex
    cases findIndexById pid ps with
    | none => simp
    | some i =>
      simp only [Int.reduceNeg]
      omega

  have hne : (ps.length : Int) ≠ 0 := by exact_mod_cast hlen.ne.symm
  have h1 := Int.emod_nonneg (jsFindIndex ps pid + 1) hne
  have h2 := Int.emod_lt_of_pos (jsFindIndex ps pid + 1)
    (by exact_mod_cast hlen : (0 : Int) < (ps.length : Int))
  omega

lemma nextPlayerId_mem (ps : List Player) (pid : String) (h : ps ≠ []) :
    nextPlayerId ps pid ∈ ps.map Player.id := by
  unfold nextPlayerId
  rw [List.getD_eq_get ps defaultPlayer (nextPlayerIndex_lt ps pid h)]
  exact List.mem_map_of_mem Player.id (ps.get_mem _ _)

/-- With distinct ids, advancing from the player at index `i` lands on the
player at index `(i + 1) % length`. -/
lemma nextPlayerId_eq (ps : List Player) (i : Nat) (hi : i < ps.length)
    (hnd : (ps.map Player.id).Nodup) :
    nextPlayerId ps (ps.get ⟨i, hi⟩).id
      = (ps.getD ((i + 1) % ps.length) defaultPlayer).id := by
  unfold nextPlayerId nextPlayerIndex jsFindIndex
  rw [findIndexById_get ps i hi hnd]
  have hcast : ((i : Int) + 1) % (ps.length : Int) = (((i + 1) % ps.length : Nat) : Int) := by
    push_cast
    rfl
  rw [hcast, Int.toNat_natCast]

/-- The accepted-action path of `handleCommand`: with a non-blank input the
write always happens and has exactly this shape. -/
lemma handleCommand_accepts (s : GameState) (input : String) (r : GameResult)
    (hne : (jsTrim input).data.isEmpty = false) :
    handleCommand s input r = some { s with
      currentLocation := jsOr r.location s.currentLocation,
      history := (s.history ++ ["> " ++ playerNameOf s ++ ": " ++ input]) ++ [r.response],
      inventory := setInv s.inventory s.currentPlayer
        ((getInv s.inventory s.currentPlayer).filter
            (fun item => !r.removeItems.contains item) ++ r.newItems),
      currentPlayer := nextPlayerId s.players s.currentPlayer } := by
  simp [handleCommand, hne]

/-! ## Claim theorems -/

/-- C1: the claim says an action by a player other than
`roster[turnIndex]` is rejected with `NotYourTurn` with no state change
and no engine call.  The code has no such check: `handleCommand`
(part_002 lines 102-159) never reads the submitting client's `playerId`,
so the transition below is what EVERY client's submission performs —
including Bob's while it is Alice's turn.  At the started two-player
session `sTwo` (Alice's turn), a submitted command is processed: the
engine result is consumed, history gains the echo (attributed to Alice)
and the narrative, and the turn advances to Bob — nothing is rejected
and state does change. -/
theorem c1_no_notYourTurn_check :
    handleCommand sTwo "look"
        (processGameAction (.ok none "The cave is dark.") "look" ctxCave 0)
      = some { sTwo with
          history := sTwo.history ++ ["> Alice: look", "The cave is dark."],
          currentPlayer := "b" }
    ∧ sTwo.currentPlayer = "a" ∧ ("b" : String) ≠ "a" := by
  decide

/-- C2 counterexample: in a started single-player session an accepted
action is processed (`isSome`) and leaves `currentPlayer` unchanged
(`(0 + 1) % 1 = 0`), so the part_002 reset effect — which fires only when
the observed `currentPlayer` changes — does not reset the client timer:
a remaining time of 37 s stays 37 s instead of returning to
`TURN_TIME_LIMIT`.  The claim asserts every accepted action (any
`N > 0`) resets the turn deadline. -/
theorem c2_single_player_no_timer_reset :
    (handleCommand sSolo "look"
        (processGameAction (.ok none "The cave is dark.") "look" ctxCave 0)).map
        GameState.currentPlayer
      = some sSolo.currentPlayer
    ∧ (handleCommand sSolo "look"
        (processGameAction (.ok none "The cave is dark.") "look" ctxCave 0)).isSome = true
    ∧ resetTimerOnChange sSolo.currentPlayer sSolo.currentPlayer 37 = 37
    ∧ (37 : Nat) ≠ TURN_TIME_LIMIT := by
  decide

/-- C3 counterexample: on a 2xx response whose body fails to parse
(`.ok none raw`), the code keeps the raw text as the narrative — it does
NOT substitute the location-keyed fallback.  At location `cave` the
fallback table has exactly two entries and the action `wave` takes the
random branch, so the two narratives below are the only location-keyed
fallback narratives possible for this context and action; the returned
response equals the raw text and differs from both. -/
theorem c3_malformed_output_keeps_raw_text :
    (processGameAction (.ok none "xyzzy") "wave" ctxCave 0).response = "xyzzy"
    ∧ (processGameAction (.ok none "xyzzy") "wave" ctxCave 0).response
        ≠ (getFallbackResponse ctxCave "wave" 0).response
    ∧ (processGameAction (.ok none "xyzzy") "wave" ctxCave 0).response
        ≠ (getFallbackResponse ctxCave "wave" 1).response
    ∧ (fallbackFor ctxCave.currentLocation).length = 2 := by
  decide

/-- C4 counterexample: the command `take key`, with both `monkey` and
`key` discovered in the narrative (`key` is named and present), moves
`monkey` — the FIRST entry matching by two-way substring inclusion
(`"key"` is a substring of `"monkey"`) — not the named item: `newItems`
is `["monkey"]`, and `key` is the entry left in the discovered list. -/
theorem c4_pickup_moves_first_partial_match :
    extractFoundItems "you see a monkey. you find a key." = ["monkey", "key"]
    ∧ (processGameAction (.ok none "you see a monkey. you find a key.")
        "take key" ctxCave 0).newItems = ["monkey"]
    ∧ (processGameAction (.ok none "you see a monkey. you find a key.")
        "take key" ctxCave 0).newItems ≠ ["key"]
    ∧ (processGameAction (.ok none "you see a monkey. you find a key.")
        "take key" ctxCave 0).foundItems = ["key"] := by
  decide

/-- C7 counterexample: `joinGameRoom` performs no started check: at the
started snapshot `sTwo` (`gameStarted = true`) the join is not rejected —
the roster grows by one and the new player is appended. -/
theorem c7_join_after_start_adds_player :
    sTwo.gameStarted = true
    ∧ (joinGameRoom sTwo "e5" "Eve").players.length = sTwo.players.length + 1
    ∧ (joinGameRoom sTwo "e5" "Eve").players
        = sTwo.players ++ [⟨"e5", "Eve", false⟩] := by
  decide

/-- C7 (amended): `joinGameRoom` (supabase.ts lines 78-122) appends the
new player with `isReady = false` and an empty inventory entry keyed by
the fresh id, for EVERY snapshot — started or not; there is no
`AlreadyStarted` rejection anywhere, and no other field changes. -/
theorem c7_join_unconditional (s : GameState) (newId name : String) :
    (joinGameRoom s newId name).players = s.players ++ [⟨newId, name, false⟩]
    ∧ (joinGameRoom s newId name).inventory = setInv s.inventory newId []
    ∧ (joinGameRoom s newId name).gameStarted = s.gameStarted
    ∧ (joinGameRoom s newId name).history = s.history
    ∧ (joinGameRoom s newId name).currentPlayer = s.currentPlayer
    ∧ (joinGameRoom s newId name).foundItems = s.foundItems := by
  exact ⟨rfl, rfl, rfl, rfl, rfl, rfl⟩

/-- C8: the claim says a rate-limit failure surfaces the specific
"resting" notice and sets the session banner.  In the code the rate-limit
path (llm.ts lines 192-198) throws, the single `catch` (lines 314-318)
returns the generic location-keyed fallback, and the dead constant
`API_LIMIT_MESSAGE` is never used: on a rate-limited call the narrative
is the cave fallback, the part_002 banner trigger
(`includes("API usage limit has been reached")`) is false, and the
response differs from the resting message. -/
theorem c8_rate_limit_resting_notice_never_shown :
    processGameAction (.httpError true) "look" ctxCave 7
      = getFallbackResponse ctxCave "look" 7
    ∧ (processGameAction (.httpError true) "look" ctxCave 7).response
      = "You carefully observe your surroundings. The cave entrance looms before you, dark and mysterious. You can make out some glinting objects inside."
    ∧ apiLimitBannerTriggered (processGameAction (.httpError true) "look" ctxCave 7)
      = false
    ∧ (processGameAction (.httpError true) "look" ctxCave 7).response
      ≠ API_LIMIT_MESSAGE.response := by
  refine ⟨rfl, by decide, by decide, by decide⟩

/-- C10: a blank (empty or whitespace-only) command is a complete no-op:
the part_002 guard returns before the engine call and before any store
write, for every session state and every conceivable engine result (the
`result` argument is universally quantified precisely because the source
returns before `processGameAction` is ever invoked), so no history entry
and no field change can occur. -/
theorem c10_blank_command_noop (s : GameState) (input : String)
    (result : GameResult) (h : jsTrim input = "") :
    handleCommand s input result = none := by
  simp [handleCommand, h]

/-- Witness for C10 at the whitespace-only input `"   "`. -/
theorem c10_blank_command_noop_witness :
    jsTrim "   " = ""
    ∧ handleCommand sTwo "   " (processGameAction .fetchError "   " ctxCave 0) = none :=
  ⟨by decide, c10_blank_command_noop sTwo "   " _ (by decide)⟩

/-! ## C9: the local lobby roster cap -/

lemma applyLobbyOp_length_le (ps : List Player) (op : LobbyOp)
    (h : ps.length ≤ 4) : (applyLobbyOp ps op).length ≤ 4 := by
  cases op with
  | add name newId =>
    simp only [applyLobbyOp, addPlayer]
    split
    · exact h
    · rename_i hcond
      have hlt : ¬ (4 ≤ ps.length) := by
        intro hge
        simp [decide_eq_true hge] at hcond
      simp only [List.length_append, List.length_cons, List.length_nil]
      omega
  | remove pid =>
    simp only [applyLobbyOp, removePlayer]
    exact le_trans (List.length_filter_le _ _) h
  | toggle pid =>
    simpa [applyLobbyOp, toggleReady] using h

lemma foldl_lobby_length_le (ops : List LobbyOp) (ps : List Player)
    (h : ps.length ≤ 4) : (ops.foldl applyLobbyOp ps).length ≤ 4 := by
  induction ops generalizing ps with
  | nil => simpa using h
  | cons op rest ih => exact ih _ (applyLobbyOp_length_le ps op h)

/-- C9: the local lobby caps the roster at 4: `addPlayer` leaves a full
(≥ 4) roster unchanged, and every sequence of add/remove/ready operations
starting from the empty lobby keeps the roster length at most 4. -/
theorem c9_lobby_roster_cap :
    (∀ ps : List Player, ∀ name newId : String,
        4 ≤ ps.length → addPlayer ps name newId = ps)
    ∧ ∀ ops : List LobbyOp, (ops.foldl applyLobbyOp []).length ≤ 4 := by
  constructor
  · intro ps name newId h
    simp [addPlayer, decide_eq_true h]
  · intro ops
    exact foldl_lobby_length_le ops [] (by simp)

/-- Witness for C9: a full concrete lobby rejects a fifth player, and a
concrete operation sequence stays within the cap. -/
theorem c9_lobby_roster_cap_witness :
    addPlayer [alice, bob, ⟨"c", "Cid", false⟩, ⟨"d", "Dot", false⟩] "Eve" "e5"
      = [alice, bob, ⟨"c", "Cid", false⟩, ⟨"d", "Dot", false⟩]
    ∧ ([LobbyOp.add "Eve" "e5", LobbyOp.add "Fay" "f6", LobbyOp.remove "e5",
        LobbyOp.toggle "f6"].foldl applyLobbyOp []).length ≤ 4 :=
  ⟨c9_lobby_roster_cap.1 _ "Eve" "e5" (by decide), c9_lobby_roster_cap.2 _⟩

/-! ## C6: validity of the current-turn designator -/

/-- The static help record of the TextAdventure.tsx initial state
(lines 131-151). -/
def initialHelpInfo : HelpInfo :=
  { commands :=
      ["help - Show this help message",
       "look - Examine your surroundings",
       "inventory - Check your inventory",
       "take/pick up [item] - Pick up an item",
       "drop [item] - Drop an item",
       "wear/equip [item] - Equip an item",
       "remove/unequip [item] - Unequip an item",
       "go [direction] - Move in a direction",
       "examine [item] - Look at an item closely"],
    locations := ["cave", "forest", "dragon\x27s lair"],
    items := ["sword", "shield", "torch", "key", "map"],
    tips :=
      ["Items must be explicitly picked up with \"take\" or \"pick up\"",
       "Use \"help\" anytime to see available commands",
       "Some items can be equipped for special effects",
       "Pay attention to your surroundings for clues"] }

/-- The initial shared state built when the game starts
(TextAdventure.tsx lines 120-155, run when `players.length > 0`):
`currentPlayer` is fixed to `players[0].id`.  The JS
`players.reduce((acc, p) => ({...acc, [p.id]: []}), {})` builds the
id-keyed empty-inventory object in roster order. -/
def initialGameState (players : List Player) : GameState :=
  { currentLocation := "cave",
    inventory := players.map (fun p => (p.id, [])),
    history := ["Welcome to the cave! Your adventure begins..."],
    currentPlayer := (players.headD defaultPlayer).id,
    players := players,
    gameStarted := false,
    equippedItems := players.map (fun p => (p.id, ([] : List String))),
    foundItems := [],
    helpInfo := some initialHelpInfo }

/-- The session states reachable once gameplay has started: the initial
state of a non-empty roster, followed by any interleaving of accepted
actions, timer skips and ready toggles. -/
inductive Reachable : GameState → Prop where
  | init (players : List Player) (h : players ≠ []) :
      Reachable (initialGameState players)
  | act {s s₁ : GameState} (input : String) (result : GameResult)
      (hs : Reachable s) (hstep : handleCommand s input result = some s₁) :
      Reachable s₁
  | skip {s : GameState} (hs : Reachable s) : Reachable (handleSkipTurn s)
  | ready {s : GameState} (pid : String) (b : Bool) (hs : Reachable s) :
      Reachable (updatePlayerStatus s pid b)

/-- The code's analogue of `0 ≤ turnIndex < len(roster)`: the roster is
non-empty and `currentPlayer` is the id of a roster member (the index is
recovered by `findIndex`). -/
def validTurn (s : GameState) : Prop :=
  s.players ≠ [] ∧ s.currentPlayer ∈ s.players.map Player.id

/-- C6: every reachable session state designates a valid current player:
the roster stays non-empty and `currentPlayer` is always the id of a
roster member — established by the start transition (`players[0].id`)
and preserved by accepted actions, timer skips and ready toggles. -/
theorem c6_reachable_validTurn (s : GameState) (h : Reachable s) :
    validTurn s := by
  induction h with
  | init players hne =>
    refine ⟨hne, ?_⟩
    cases players with
    | nil => exact absurd rfl hne
    | cons p rest => simp [initialGameState]
  | act input result hs hstep ih =>
    simp only [handleCommand] at hstep
    split at hstep
    · exact absurd hstep (by simp)
    · cases hstep
      exact ⟨by simpa using ih.1,
        by simpa using nextPlayerId_mem _ _ ih.1⟩
  | skip hs ih =>
    exact ⟨by simpa [handleSkipTurn] using ih.1,
      by simpa [handleSkipTurn] using nextPlayerId_mem _ _ ih.1⟩
  | ready pid b hs ih =>
    rename_i s'
    have hids : (updatePlayerStatus s' pid b).players.map Player.id
        = s'.players.map Player.id := by
      simp only [updatePlayerStatus, List.map_map]
      apply List.map_congr_left
      intro p _
      by_cases hp : p.id = pid <;> simp [hp, beq_iff_eq]
    refine ⟨?_, ?_⟩
    · simpa [updatePlayerStatus, List.map_eq_nil] using ih.1
    · show s'.currentPlayer ∈ (updatePlayerStatus s' pid b).players.map Player.id
      rw [hids]
      exact ih.2

/-- Witness for C6: a concrete reachable state (skip applied to a started
two-player session) satisfies the invariant. -/
theorem c6_reachable_validTurn_witness :
    validTurn (handleSkipTurn (initialGameState [alice, bob])) :=
  c6_reachable_validTurn _
    (Reachable.skip (Reachable.init [alice, bob] (by decide)))

/-! ## C5: the timer skip -/

/-- C5: when the part_002 countdown reaches the firing threshold
(`remaining ≤ 1`), the tick invokes `handleSkipTurn` and resets the
counter to `TURN_TIME_LIMIT`; the skip appends exactly one
"turn was skipped" line, advances `currentPlayer` by one position
(mod roster length), and leaves location, inventory, equipped items,
discovered items and the roster unchanged.  `handleSkipTurn` takes no
engine result — the skip path cannot call the NarrativeEngine. -/
theorem c5_timer_skip (s : GameState) (i : Nat) (hi : i < s.players.length)
    (hcur : s.currentPlayer = (s.players.get ⟨i, hi⟩).id)
    (hnd : (s.players.map Player.id).Nodup)
    (remaining : Nat) (hr : remaining ≤ 1) :
    timerTick s remaining = (handleSkipTurn s, TURN_TIME_LIMIT)
    ∧ (handleSkipTurn s).history
        = s.history ++ ["> " ++ playerNameOf s ++ "\x27s turn was skipped (time\x27s up)"]
    ∧ (handleSkipTurn s).currentPlayer
        = (s.players.getD ((i + 1) % s.players.length) defaultPlayer).id
    ∧ (handleSkipTurn s).currentLocation = s.currentLocation
    ∧ (handleSkipTurn s).inventory = s.inventory
    ∧ (handleSkipTurn s).equippedItems = s.equippedItems
    ∧ (handleSkipTurn s).foundItems = s.foundItems
    ∧ (handleSkipTurn s).players = s.players := by
  refine ⟨by simp [timerTick, hr], rfl, ?_, rfl, rfl, rfl, rfl, rfl⟩
  show nextPlayerId s.players s.currentPlayer = _
  rw [hcur]
  exact nextPlayerId_eq s.players i hi hnd

/-- Witness for C5 at the two-player session `sTwo` with one second left. -/
theorem c5_timer_skip_witness :
    timerTick sTwo 1 = (handleSkipTurn sTwo, TURN_TIME_LIMIT)
    ∧ (handleSkipTurn sTwo).history
        = sTwo.history ++ ["> " ++ playerNameOf sTwo ++ "\x27s turn was skipped (time\x27s up)"]
    ∧ (handleSkipTurn sTwo).currentPlayer
        = (sTwo.players.getD ((0 + 1) % sTwo.players.length) defaultPlayer).id
    ∧ (handleSkipTurn sTwo).inventory = sTwo.inventory := by
  have h := c5_timer_skip sTwo 0 (by decide) (by decide) (by decide) 1 (by decide)
  exact ⟨h.1, h.2.1, h.2.2.1, h.2.2.2.2.1⟩

/-! ## C2: round-robin turn order -/

/-- A sequence of accepted actions, each a (command, engine result) pair,
applied through `handleCommand` with the shared-document write after each. -/
def runActions (s : GameState) (acts : List (String × GameResult)) :
    Option GameState :=
  acts.foldlM (fun st a => handleCommand st a.1 a.2) s

lemma succ_mod_ne (i N : Nat) (hi : i < N) (h2 : 2 ≤ N) : (i + 1) % N ≠ i := by
  rcases Nat.lt_or_ge (i + 1) N with h | h
  · rw [Nat.mod_eq_of_lt h]
    omega
  · have hN : i + 1 = N := by omega
    rw [hN, Nat.mod_self]
    omega

lemma get_id_inj (ps : List Player) (hnd : (ps.map Player.id).Nodup)
    {i j : Nat} (hi : i < ps.length) (hj : j < ps.length)
    (h : (ps.get ⟨i, hi⟩).id = (ps.get ⟨j, hj⟩).id) : i = j := by
  have hi' : i < (ps.map Player.id).length := by simpa using hi
  have hj' : j < (ps.map Player.id).length := by simpa using hj
  have hmap : (ps.map Player.id).get ⟨i, hi'⟩ = (ps.map Player.id).get ⟨j, hj'⟩ := by
    simpa using h
  have := (List.Nodup.get_inj_iff hnd).mp hmap
  simpa using this

lemma runActions_round (acts : List (String × GameResult)) (s : GameState)
    (i : Nat) (hi : i < s.players.length)
    (hcur : s.currentPlayer = (s.players.get ⟨i, hi⟩).id)
    (hnd : (s.players.map Player.id).Nodup)
    (hall : ∀ a ∈ acts, (jsTrim a.1).data.isEmpty = false) :
    ∃ s₁, runActions s acts = some s₁ ∧ s₁.players = s.players
      ∧ s₁.currentPlayer
          = (s.players.getD ((i + acts.length) % s.players.length) defaultPlayer).id := by
  induction acts generalizing s i with
  | nil =>
    refine ⟨s, by simp [runActions], rfl, ?_⟩
    rw [List.length_nil, Nat.add_zero, Nat.mod_eq_of_lt hi,
      List.getD_eq_get s.players defaultPlayer hi]
    exact hcur
  | cons a rest ih =>
    have hne : (jsTrim a.1).data.isEmpty = false := hall a (List.mem_cons_self a rest)
    have hstep := handleCommand_accepts s a.1 a.2 hne
    have hpos : 0 < s.players.length := Nat.pos_of_ne_zero (by omega)
    have hj : (i + 1) % s.players.length < s.players.length := Nat.mod_lt _ hpos
    set s' : GameState := { s with
      currentLocation := jsOr a.2.location s.currentLocation,
      history := (s.history ++ ["> " ++ playerNameOf s ++ ": " ++ a.1]) ++ [a.2.response],
      inventory := setInv s.inventory s.currentPlayer
        ((getInv s.inventory s.currentPlayer).filter
            (fun item => !a.2.removeItems.contains item) ++ a.2.newItems),
      currentPlayer := nextPlayerId s.players s.currentPlayer } with hs'
    have hcur' : s'.currentPlayer = (s'.players.get ⟨(i + 1) % s.players.length, hj⟩).id := by
      show nextPlayerId s.players s.currentPlayer = _
      rw [hcur, nextPlayerId_eq s.players i hi hnd,
        List.getD_eq_get s.players defaultPlayer hj]
    obtain ⟨s₁, hrun, hp, hc⟩ :=
      ih s' ((i + 1) % s.players.length) hj hcur' hnd
        (fun b hb => hall b (List.mem_cons_of_mem a hb))
    refine ⟨s₁, ?_, hp, ?_⟩
    · show (a :: rest).foldlM (fun st x => handleCommand st x.1 x.2) s = some s₁
      rw [List.foldlM_cons, hstep]
      simpa [runActions] using hrun
    · rw [hc]
      have hlen : i + 1 + rest.length = i + (a :: rest).length := by
        simp only [List.length_cons]
        omega
      show (s.players.getD _ defaultPlayer).id = (s.players.getD _ defaultPlayer).id
      rw [Nat.mod_add_mod, hlen]

/-- C2 (amended): every accepted action advances the current player to the
roster entry at `(i + 1) % N`, and N consecutive accepted actions return
the designator to its starting value; the part_002 client timer, however,
resets only when the observed `currentPlayer` value CHANGES — guaranteed
for `N ≥ 2` with distinct ids, but not for `N = 1` (see the
counterexample). -/
theorem c2_round_robin (s : GameState) (i : Nat) (hi : i < s.players.length)
    (hcur : s.currentPlayer = (s.players.get ⟨i, hi⟩).id)
    (hnd : (s.players.map Player.id).Nodup)
    (input : String) (r : GameResult)
    (hne : (jsTrim input).data.isEmpty = false)
    (acts : List (String × GameResult))
    (hall : ∀ a ∈ acts, (jsTrim a.1).data.isEmpty = false)
    (hN : acts.length = s.players.length) (t : Nat) :
    (∃ s', handleCommand s input r = some s'
       ∧ s'.players = s.players
       ∧ s'.currentPlayer
           = (s.players.getD ((i + 1) % s.players.length) defaultPlayer).id
       ∧ (2 ≤ s.players.length →
            s'.currentPlayer ≠ s.currentPlayer
            ∧ resetTimerOnChange s.currentPlayer s'.currentPlayer t = TURN_TIME_LIMIT))
    ∧ ∃ s₁, runActions s acts = some s₁ ∧ s₁.currentPlayer = s.currentPlayer := by
  have hpos : 0 < s.players.length := Nat.pos_of_ne_zero (by omega)
  have hj : (i + 1) % s.players.length < s.players.length := Nat.mod_lt _ hpos
  constructor
  · refine ⟨_, handleCommand_accepts s input r hne, rfl, ?_, ?_⟩
    · show nextPlayerId s.players s.currentPlayer = _
      rw [hcur]
      exact nextPlayerId_eq s.players i hi hnd
    · intro h2
      have hdiff : nextPlayerId s.players s.currentPlayer ≠ s.currentPlayer := by
        rw [hcur, nextPlayerId_eq s.players i hi hnd,
          List.getD_eq_get s.players defaultPlayer hj]
        intro heq
        exact succ_mod_ne i s.players.length hi h2 (get_id_inj s.players hnd hj hi heq)
      exact ⟨hdiff, by simp [resetTimerOnChange, hdiff]⟩
  · obtain ⟨s₁, hrun, _, hc⟩ := runActions_round acts s i hi hcur hnd hall
    refine ⟨s₁, hrun, ?_⟩
    rw [hc, hN, Nat.add_mod_right, Nat.mod_eq_of_lt hi,
      List.getD_eq_get s.players defaultPlayer hi]
    exact hcur.symm

/-- Witness for C2 at the two-player session `sTwo`: one accepted action
hands the turn to Bob and resets the observed-change timer; two accepted
actions return the turn to Alice. -/
theorem c2_round_robin_witness :
    (∃ s', handleCommand sTwo "look" (⟨"ok", "", [], [], [], []⟩ : GameResult) = some s'
       ∧ s'.players = sTwo.players
       ∧ s'.currentPlayer
           = (sTwo.players.getD ((0 + 1) % sTwo.players.length) defaultPlayer).id
       ∧ (2 ≤ sTwo.players.length →
            s'.currentPlayer ≠ sTwo.currentPlayer
            ∧ resetTimerOnChange sTwo.currentPlayer s'.currentPlayer 5 = TURN_TIME_LIMIT))
    ∧ ∃ s₁, runActions sTwo
          [("look", ⟨"ok", "", [], [], [], []⟩), ("go north", ⟨"ok", "", [], [], [], []⟩)]
        = some s₁ ∧ s₁.currentPlayer = sTwo.currentPlayer :=
  c2_round_robin sTwo 0 (by decide) (by decide) (by decide) "look" _ (by decide)
    [("look", ⟨"ok", "", [], [], [], []⟩), ("go north", ⟨"ok", "", [], [], [], []⟩)]
    (by decide) (by decide) 5

/-! ## C3: engine-failure recovery -/

/-- C3 (amended): the thrown engine failures — network error and non-2xx
response (rate-limited or not) — are all caught and replaced by
`getFallbackResponse`, which keys its narrative table on
`context.currentLocation`; and for EVERY engine result whatsoever the
accepted action still completes with the turn advanced.  (A 2xx response
with unparseable content is also not escalated, but it keeps the raw text
as narrative instead of the location-keyed fallback — see the
counterexample.) -/
theorem c3_engine_failure_recovery (s : GameState) (i : Nat)
    (hi : i < s.players.length)
    (hcur : s.currentPlayer = (s.players.get ⟨i, hi⟩).id)
    (hnd : (s.players.map Player.id).Nodup)
    (action : String) (context : GameContext) (rand : Nat) (b : Bool)
    (hne : (jsTrim action).data.isEmpty = false) :
    processGameAction .fetchError action context rand
      = getFallbackResponse context action rand
    ∧ processGameAction (.httpError b) action context rand
      = getFallbackResponse context action rand
    ∧ ∀ r : GameResult, ∃ s', handleCommand s action r = some s'
        ∧ s'.players = s.players
        ∧ s'.currentPlayer
            = (s.players.getD ((i + 1) % s.players.length) defaultPlayer).id := by
  refine ⟨rfl, rfl, fun r => ⟨_, handleCommand_accepts s action r hne, rfl, ?_⟩⟩
  show nextPlayerId s.players s.currentPlayer = _
  rw [hcur]
  exact nextPlayerId_eq s.players i hi hnd

/-- Witness for C3: a network failure on `go north` at `sTwo` yields the
fallback and the turn still advances. -/
theorem c3_engine_failure_recovery_witness :
    processGameAction .fetchError "go north" ctxCave 0
      = getFallbackResponse ctxCave "go north" 0
    ∧ ∃ s', handleCommand sTwo "go north"
          (processGameAction .fetchError "go north" ctxCave 0) = some s'
        ∧ s'.players = sTwo.players
        ∧ s'.currentPlayer
            = (sTwo.players.getD ((0 + 1) % sTwo.players.length) defaultPlayer).id := by
  have h := c3_engine_failure_recovery sTwo 0 (by decide) (by decide) (by decide)
    "go north" ctxCave 0 true (by decide)
  exact ⟨h.1, h.2.2 _⟩

/-! ## C4: pickup resolution -/

/-- C4 (amended): for a pickup-class command the code resolves the target
with `itemToPick = lowercased command minus the first "pick up"/"take" +
whitespace run`, matched against the extracted found-item list by TWO-WAY
substring inclusion, and moves the FIRST matching entry (not necessarily
the named one); when nothing matches, the inventory delta is empty and the
fixed "don\x27t see that item" message replaces the narrative; when
`itemToPick` is literally empty (the command carried trailing whitespace
after the verb) the first discovered entry is moved. -/
theorem c4_pickup_resolution (raw action : String) (context : GameContext)
    (rand : Nat) (hp : isPickupCommand action = true)
    (hh : ¬ jsToLower action = "help") :
    (∀ x, (extractFoundItems raw).find? (pickMatches (pickupTarget action)) = some x →
        processGameAction (.ok none raw) action context rand
          = { response := "You pick up the " ++ x ++ ".",
              location := context.currentLocation, newItems := [x],
              removeItems := [], equippedItems := context.equippedItems,
              foundItems := (extractFoundItems raw).erase x })
    ∧ ((extractFoundItems raw).find? (pickMatches (pickupTarget action)) = none →
        processGameAction (.ok none raw) action context rand
          = { response := "You don\x27t see that item to pick up.",
              location := context.currentLocation, newItems := [],
              removeItems := [], equippedItems := context.equippedItems,
              foundItems := extractFoundItems raw })
    ∧ (pickupTarget action = "" →
        ∀ f rest, extractFoundItems raw = f :: rest →
          (processGameAction (.ok none raw) action context rand).newItems = [f]
          ∧ (processGameAction (.ok none raw) action context rand).foundItems = rest) := by
  have hred : processGameAction (.ok none raw) action context rand
      = handlePickupCmd action context (extractFoundItems raw) := by
    simp [processGameAction, hh, hp]
  have hmatch_empty : pickupTarget action = "" →
      ∀ y : String, pickMatches (pickupTarget action) y = true := by
    intro hempty y
    rw [hempty]
    simp [pickMatches, jsIncludes_empty]
  have part1 : ∀ x, (extractFoundItems raw).find? (pickMatches (pickupTarget action)) = some x →
      processGameAction (.ok none raw) action context rand
        = { response := "You pick up the " ++ x ++ ".",
            location := context.currentLocation, newItems := [x],
            removeItems := [], equippedItems := context.equippedItems,
            foundItems := (extractFoundItems raw).erase x } := by
    intro x hx
    rw [hred]
    simp [handlePickupCmd, hx]
  refine ⟨part1, ?_, ?_⟩
  · intro hnone
    have hinner : ((pickupTarget action).data.isEmpty
        && !(extractFoundItems raw).isEmpty) = false := by
      cases hfe : (pickupTarget action).data.isEmpty with
      | false => simp
      | true =>
        cases hfs : extractFoundItems raw with
        | nil => simp [hfs]
        | cons f rest =>
          exfalso
          have hempty : pickupTarget action = "" := by
            have : (pickupTarget action).data = [] := by
              simpa using hfe
            exact String.ext this
          have hm := hmatch_empty hempty f
          rw [hfs, List.find?_cons_of_pos _ hm] at hnone
          exact Option.noConfusion hnone
    rw [hred]
    simp [handlePickupCmd, hnone, hinner]
  · intro hempty f rest hfs
    have hm := hmatch_empty hempty f
    have hfind : (extractFoundItems raw).find? (pickMatches (pickupTarget action))
        = some f := by
      rw [hfs]
      exact List.find?_cons_of_pos _ hm
    have hres := part1 f hfind
    rw [hres]
    refine ⟨rfl, ?_⟩
    show (extractFoundItems raw).erase f = rest
    rw [hfs, List.erase_cons_head]

/-- Witness for C4: `take torch` with `torch` freshly discovered moves
exactly the torch. -/
theorem c4_pickup_resolution_witness :
    processGameAction (.ok none "you find a torch.") "take torch" ctxCave 0
      = { response := "You pick up the torch.", location := "cave",
          newItems := ["torch"], removeItems := [], equippedItems := [],
          foundItems := [] } := by
  have h := c4_pickup_resolution "you find a torch." "take torch" ctxCave 0
    (by decide) (by decide)
  have h1 := h.1 "torch" (by decide)
  rw [h1]
  decide

end TheFinalPage
